import Mathlib

/-!
# Verification of `groups.go` (package `crowd`)

A shallow embedding of the group operations of the Crowd REST client
(`GetGroups`, `GetGroup`, `CreateGroup`, `FindGroups` / `findGroups`) together
with the parts of the Go standard library they call.

Conventions of the embedding:

* a Go `string` is a Lean `String`; a Go `int` is an `Int` kept in the range of
  a 64-bit machine word by `wrapInt`;
* a Go slice is a `List` (a nil slice and an empty slice are both `[]`);
  a `*Group` is an `Option Group`;
* a Go `error` is an `Option GoError` (`none` is `nil`);
* the network, the requests handed to `Client.Do` and the text printed on
  standard output are threaded through the functions as a `World`;
* a call either returns, panics, or (recursion only) exhausts the recursion
  budget of the model: see `Outcome`.
-/

set_option maxRecDepth 100000

namespace crowd

/-! ## Go values -/

/-- A Go `error` value, identified by the text its `Error()` method yields. -/
structure GoError where
  msg : String
  deriving DecidableEq, Repr

/-- The way a call of the embedded program ends. -/
inductive Outcome (α : Type) where
  /-- the call returned the value `a` -/
  | ret (a : α)
  /-- the call ended in a Go `panic` -/
  | panic
  /-- the recursion budget given to the model was used up before the call ended -/
  | outOfFuel
  deriving DecidableEq, Repr

/-- Two's-complement wrap-around of a mathematical integer into a 64-bit Go `int`. -/
def wrapInt (x : Int) : Int := (x + 2 ^ 63) % 2 ^ 64 - 2 ^ 63

/-- `fmt.Errorf` for the format strings of this file (`%s` already expanded). -/
def fmt.Errorf (text : String) : GoError := ⟨text⟩

/-- `strconv.Itoa`: the decimal text of an `int`. -/
def strconv.Itoa (i : Int) : String :=
  match i with
  | Int.ofNat n => (Nat.toDigits 10 n).asString
  | Int.negSucc n => "-" ++ (Nat.toDigits 10 (n + 1)).asString

/-! ## `net/url` -/

/-- `url.shouldEscape` in mode `encodeQueryComponent`: everything but the
unreserved characters of RFC 3986 is escaped. -/
def url.shouldEscape (c : Char) : Bool :=
  !(c.isAlphanum || c == '-' || c == '_' || c == '.' || c == '~')

/-- The upper-case hexadecimal digit of a number below 16. -/
def url.upperhex (n : Nat) : Char := "0123456789ABCDEF".data.getD n '0'

/-- `url.QueryEscape`: a space becomes `+`, every other escaped character becomes
`%XX` for each byte of its UTF-8 encoding. -/
def url.QueryEscape (s : String) : String :=
  String.mk (s.data.flatMap fun c =>
    if c = ' ' then ['+']
    else if url.shouldEscape c then
      (String.utf8EncodeChar c).flatMap fun b =>
        ['%', url.upperhex (b.toNat / 16), url.upperhex (b.toNat % 16)]
    else [c])

/-- A Go map with string keys, kept as an association list sorted by key (the
order in which `url.Values.Encode` and `json.Marshal` visit a map). -/
abbrev GoMap (α : Type) := List (String × α)

/-- The assignment `m[key] = value`. -/
def GoMap.put {α : Type} : GoMap α → String → α → GoMap α
  | [], key, value => [(key, value)]
  | (k, x) :: rest, key, value =>
    if key = k then (k, value) :: rest
    else if key.data < k.data then (key, value) :: (k, x) :: rest
    else (k, x) :: GoMap.put rest key value

/-- `url.Values`: a map from a key to the list of its values. -/
abbrev url.Values := GoMap (List String)

/-- `Values.Set`: the key gets the single value, replacing what it had. -/
def url.Values.Set (v : url.Values) (key value : String) : url.Values :=
  GoMap.put v key [value]

/-- `Values.Encode`: `key=value` pairs in key order, joined by `&`, both sides
query-escaped. -/
def url.Values.Encode (v : url.Values) : String :=
  "&".intercalate
    (v.flatMap fun kv => kv.2.map fun x => url.QueryEscape kv.1 ++ "=" ++ url.QueryEscape x)

/-! ## `net/http` -/

/-- The parts of an `http.Request` this file sets. -/
structure http.Request where
  Method : String
  URL : String
  Body : Option String
  Header : List (String × String)
  deriving DecidableEq, Repr

/-- The parts of an `http.Response` this file reads. `Body` is what
`ioutil.ReadAll(resp.Body)` yields: the whole body, or a read error. -/
structure http.Response where
  StatusCode : Int
  Status : String
  Body : Except GoError String

/-- What the program acts on: the state of the network behind the HTTP client,
the requests handed to `Client.Do` so far (oldest first) and the text written
to standard output so far. -/
structure World (σ : Type) where
  net : σ
  sent : List http.Request
  stdout : List String

/-! ## `encoding/json`: values and the encoder -/

/-- A JSON document. A number keeps its text, as `json.Number` does. -/
inductive JSON where
  | null
  | bool (b : Bool)
  | number (text : String)
  | string (s : String)
  | array (elems : List JSON)
  | object (members : List (String × JSON))

namespace json

/-- The lower-case hexadecimal digit of a number below 16. -/
def lowerhex (n : Nat) : Char := "0123456789abcdef".data.getD n '0'

/-- The text the encoder writes for one character of a string (`appendString`
with `escapeHTML` on, the setting of `json.Marshal`). -/
def escapeChar (c : Char) : List Char :=
  if c = '\"' ∨ c = '\\' then ['\\', c]
  else if c = Char.ofNat 8 then ['\\', 'b']
  else if c = Char.ofNat 12 then ['\\', 'f']
  else if c = '\n' then ['\\', 'n']
  else if c = '\r' then ['\\', 'r']
  else if c = '\t' then ['\\', 't']
  else if c.toNat < 32 ∨ c = '<' ∨ c = '>' ∨ c = '&' then
    ['\\', 'u', '0', '0', lowerhex (c.toNat / 16), lowerhex (c.toNat % 16)]
  else if c = Char.ofNat 8232 ∨ c = Char.ofNat 8233 then
    ['\\', 'u', '2', '0', '2', lowerhex (c.toNat % 16)]
  else [c]

/-- A Go string as a JSON string literal. -/
def quote (s : String) : String :=
  String.mk ('\"' :: s.data.flatMap escapeChar ++ ['\"'])

/-- `json.Marshal` of a `map[string]string`: the members in key order, compact. -/
def Marshal (m : GoMap String) : String :=
  "\x7b" ++ ",".intercalate (m.map fun kv => quote kv.1 ++ ":" ++ quote kv.2) ++ "\x7d"

/-! ## `encoding/json`: the scanner

The decoder reads a document one character at a time, as the scanner of
`encoding/json` does, keeping a stack of the arrays and objects that are open.
Here the scanner also builds the value it has read. -/

/-- An array or object that is still open. -/
inductive Frame where
  /-- inside `[`: the elements read so far -/
  | array (done : List JSON)
  /-- inside an object: the members read so far and the key read last -/
  | object (done : List (String × JSON)) (key : String)

/-- Where the scanner is inside an escape sequence of a string. -/
inductive Esc where
  /-- not in an escape sequence -/
  | no
  /-- right after a backslash -/
  | backslash
  /-- after `\u`: the hexadecimal digits read so far -/
  | hex (digits : List Nat)

/-- Where the scanner is inside a number. -/
inductive NumState where
  | neg | zero | int | dot | frac | exp | expSign | expDigits

/-- What the scanner expects next. -/
inductive Mode where
  /-- a value must begin -/
  | value
  /-- right after `[`: a value or `]` -/
  | valueOrClose
  /-- right after the opening brace: a key or the closing brace -/
  | keyOrClose
  /-- after a comma inside an object: a key -/
  | key
  /-- after a key: the colon -/
  | colon
  /-- the value `v` is complete: a comma, a closing bracket or the end -/
  | done (v : JSON)
  /-- inside a string: whether it is a key, the characters decoded so far, a
  `\u` escape holding a high surrogate that waits for its partner, and the
  escape sequence being read -/
  | inString (isKey : Bool) (acc : List Char) (pending : Option Nat) (esc : Esc)
  /-- inside a number: its text so far -/
  | inNumber (st : NumState) (acc : List Char)
  /-- inside `true`, `false` or `null`: the characters still to come -/
  | inLiteral (rest : List Char) (v : JSON)

/-- The state of the scanner. -/
structure Scanner where
  mode : Mode
  stack : List Frame

/-- JSON white space. -/
def isSpace (c : Char) : Bool := c == ' ' || c == '\t' || c == '\r' || c == '\n'

/-- The value of a hexadecimal digit. -/
def hexVal (c : Char) : Option Nat :=
  if 48 ≤ c.toNat ∧ c.toNat ≤ 57 then some (c.toNat - 48)
  else if 97 ≤ c.toNat ∧ c.toNat ≤ 102 then some (c.toNat - 87)
  else if 65 ≤ c.toNat ∧ c.toNat ≤ 70 then some (c.toNat - 55)
  else none

/-- U+FFFD, which stands for a `\u` escape that is half of a surrogate pair. -/
def replacementChar : Char := Char.ofNat 65533

/-- The characters decoded so far, once a waiting high surrogate has turned
out to have no partner. -/
def flush (acc : List Char) (pending : Option Nat) : List Char :=
  match pending with
  | none => acc
  | some _ => acc ++ [replacementChar]

/-- The scanner at the first character of a value. -/
def beginValue (stack : List Frame) (c : Char) : Option Scanner :=
  if c = '\x7b' then some ⟨Mode.keyOrClose, Frame.object [] "" :: stack⟩
  else if c = '[' then some ⟨Mode.valueOrClose, Frame.array [] :: stack⟩
  else if c = '\"' then some ⟨Mode.inString false [] none Esc.no, stack⟩
  else if c = '-' then some ⟨Mode.inNumber NumState.neg [c], stack⟩
  else if c = '0' then some ⟨Mode.inNumber NumState.zero [c], stack⟩
  else if 49 ≤ c.toNat ∧ c.toNat ≤ 57 then some ⟨Mode.inNumber NumState.int [c], stack⟩
  else if c = 't' then some ⟨Mode.inLiteral ['r', 'u', 'e'] (JSON.bool true), stack⟩
  else if c = 'f' then some ⟨Mode.inLiteral ['a', 'l', 's', 'e'] (JSON.bool false), stack⟩
  else if c = 'n' then some ⟨Mode.inLiteral ['u', 'l', 'l'] JSON.null, stack⟩
  else none

/-- The scanner at the character after the complete value `v`. -/
def endValue (stack : List Frame) (v : JSON) (c : Char) : Option Scanner :=
  if isSpace c then some ⟨Mode.done v, stack⟩
  else
    match stack with
    | [] => none
    | Frame.array es :: rest =>
      if c = ',' then some ⟨Mode.value, Frame.array (es ++ [v]) :: rest⟩
      else if c = ']' then some ⟨Mode.done (JSON.array (es ++ [v])), rest⟩
      else none
    | Frame.object ms k :: rest =>
      if c = ',' then some ⟨Mode.key, Frame.object (ms ++ [(k, v)]) k :: rest⟩
      else if c = '\x7d' then some ⟨Mode.done (JSON.object (ms ++ [(k, v)])), rest⟩
      else none

/-- The scanner at the end of a string whose characters are `s`. -/
def endString (stack : List Frame) (isKey : Bool) (s : List Char) : Option Scanner :=
  if isKey then
    match stack with
    | Frame.object ms _ :: rest => some ⟨Mode.colon, Frame.object ms (String.mk s) :: rest⟩
    | _ => none
  else some ⟨Mode.done (JSON.string (String.mk s)), stack⟩

/-- The characters decoded so far after a complete `\uXXXX` of value `code`,
and the high surrogate that now waits for its partner. -/
def endHex (acc : List Char) (pending : Option Nat) (code : Nat) :
    List Char × Option Nat :=
  let isLow : Bool := 56320 ≤ code && code ≤ 57343
  let isHigh : Bool := 55296 ≤ code && code ≤ 56319
  match pending with
  | some hi =>
    if isLow then (acc ++ [Char.ofNat (65536 + (hi - 55296) * 1024 + (code - 56320))], none)
    else if isHigh then (acc ++ [replacementChar], some code)
    else (acc ++ [replacementChar, Char.ofNat code], none)
  | none =>
    if isLow then (acc ++ [replacementChar], none)
    else if isHigh then (acc, some code)
    else (acc ++ [Char.ofNat code], none)

/-- One character inside a string. -/
def stepString (stack : List Frame) (isKey : Bool) (acc : List Char)
    (pending : Option Nat) (esc : Esc) (c : Char) : Option Scanner :=
  match esc with
  | Esc.no =>
    if c = '\"' then endString stack isKey (flush acc pending)
    else if c = '\\' then some ⟨Mode.inString isKey acc pending Esc.backslash, stack⟩
    else if c.toNat < 32 then none
    else some ⟨Mode.inString isKey (flush acc pending ++ [c]) none Esc.no, stack⟩
  | Esc.backslash =>
    let plain (d : Char) : Option Scanner :=
      some ⟨Mode.inString isKey (flush acc pending ++ [d]) none Esc.no, stack⟩
    if c = 'u' then some ⟨Mode.inString isKey acc pending (Esc.hex []), stack⟩
    else if c = '\"' ∨ c = '\\' ∨ c = '/' then plain c
    else if c = 'b' then plain (Char.ofNat 8)
    else if c = 'f' then plain (Char.ofNat 12)
    else if c = 'n' then plain '\n'
    else if c = 'r' then plain '\r'
    else if c = 't' then plain '\t'
    else none
  | Esc.hex digits =>
    match hexVal c with
    | none => none
    | some d =>
      match digits with
      | [d1, d2, d3] =>
        let r := endHex acc pending (((d1 * 16 + d2) * 16 + d3) * 16 + d)
        some ⟨Mode.inString isKey r.1 r.2 Esc.no, stack⟩
      | _ => some ⟨Mode.inString isKey acc pending (Esc.hex (digits ++ [d])), stack⟩

/-- A decimal digit. -/
def isDigit (c : Char) : Bool := 48 ≤ c.toNat && c.toNat ≤ 57

/-- One character that continues a number, if it does. -/
def stepNumber (st : NumState) (c : Char) : Option NumState :=
  let isE : Bool := c == 'e' || c == 'E'
  match st with
  | NumState.neg =>
    if c = '0' then some NumState.zero
    else if isDigit c then some NumState.int else none
  | NumState.zero =>
    if c = '.' then some NumState.dot else if isE then some NumState.exp else none
  | NumState.int =>
    if isDigit c then some NumState.int
    else if c = '.' then some NumState.dot else if isE then some NumState.exp else none
  | NumState.dot => if isDigit c then some NumState.frac else none
  | NumState.frac =>
    if isDigit c then some NumState.frac else if isE then some NumState.exp else none
  | NumState.exp =>
    if c = '+' ∨ c = '-' then some NumState.expSign
    else if isDigit c then some NumState.expDigits else none
  | NumState.expSign => if isDigit c then some NumState.expDigits else none
  | NumState.expDigits => if isDigit c then some NumState.expDigits else none

/-- Whether the text read so far is a complete number. -/
def NumState.complete : NumState → Bool
  | NumState.zero | NumState.int | NumState.frac | NumState.expDigits => true
  | _ => false

/-- One step of the scanner; `none` is a syntax error. -/
def step (s : Scanner) (c : Char) : Option Scanner :=
  match s.mode with
  | Mode.value => if isSpace c then some s else beginValue s.stack c
  | Mode.valueOrClose =>
    if isSpace c then some s
    else if c = ']' then
      match s.stack with
      | Frame.array _ :: rest => some ⟨Mode.done (JSON.array []), rest⟩
      | _ => none
    else beginValue s.stack c
  | Mode.keyOrClose =>
    if isSpace c then some s
    else if c = '\x7d' then
      match s.stack with
      | Frame.object _ _ :: rest => some ⟨Mode.done (JSON.object []), rest⟩
      | _ => none
    else if c = '\"' then some ⟨Mode.inString true [] none Esc.no, s.stack⟩
    else none
  | Mode.key =>
    if isSpace c then some s
    else if c = '\"' then some ⟨Mode.inString true [] none Esc.no, s.stack⟩
    else none
  | Mode.colon =>
    if isSpace c then some s
    else if c = ':' then some ⟨Mode.value, s.stack⟩
    else none
  | Mode.done v => endValue s.stack v c
  | Mode.inString isKey acc pending esc => stepString s.stack isKey acc pending esc c
  | Mode.inNumber st acc =>
    match stepNumber st c with
    | some st1 => some ⟨Mode.inNumber st1 (acc ++ [c]), s.stack⟩
    | none =>
      if st.complete then endValue s.stack (JSON.number (String.mk acc)) c else none
  | Mode.inLiteral rest v =>
    match rest with
    | [] => none
    | [d] => if c = d then some ⟨Mode.done v, s.stack⟩ else none
    | d :: more => if c = d then some ⟨Mode.inLiteral more v, s.stack⟩ else none

/-- The scanner run over a text. -/
def run : Scanner → List Char → Option Scanner
  | s, [] => some s
  | s, c :: cs =>
    match step s c with
    | none => none
    | some s1 => run s1 cs

/-- The document read, when the text ends where a document may end. -/
def finish (s : Scanner) : Option JSON :=
  match s.stack, s.mode with
  | [], Mode.done v => some v
  | [], Mode.inNumber st acc =>
    if st.complete then some (JSON.number (String.mk acc)) else none
  | _, _ => none

/-- The JSON document a text holds; `none` when the text is not valid JSON. -/
def parse (text : String) : Option JSON :=
  match run ⟨Mode.value, []⟩ text.data with
  | none => none
  | some s => finish s

/-- `json.Valid`: whether a text is syntactically valid JSON. -/
def Valid (text : String) : Bool := (parse text).isSome

end json

/-! ## The data model of `groups.go` -/

/-- Link is a child of Group. -/
structure Link where
  Href : String := ""
  Rel : String := ""
  deriving DecidableEq, Repr

/-- Group represents a group in Crowd. -/
structure Group where
  Name : String := ""
  Link : Link := {}
  deriving DecidableEq, Repr

/-- Groups come in lists. `Groups` is a `[]*Group`: an element may be nil. -/
structure listGroups where
  Groups : List (Option Group) := []
  Expand : String := ""
  deriving DecidableEq, Repr

/-- The attributes part of a `GroupInfo`. -/
structure GroupInfo.AttributesT where
  Attributes : List JSON := []
  Link : Link := {}

/-- GroupInfo returns information about a group. The source declares the type;
no function of `groups.go` builds a value of it. -/
structure GroupInfo where
  Expand : String := ""
  Link : Link := {}
  Name : String := ""
  Description : String := ""
  Type_ : String := ""
  Active : Bool := false
  Attributes : GroupInfo.AttributesT := {}

/-! ## `encoding/json`: decoding into the structs of `groups.go`

`json.Unmarshal` first checks the syntax of the whole text and leaves the
target untouched when it is wrong. Otherwise it stores what fits: a member
is matched to a field by its name, letter case ignored; `null` leaves a field
as it was; a value of the wrong kind leaves the field as it was and the first
such mismatch is the error returned at the end. -/

namespace json

/-- The least character of the case-folding class of `c`, for the classes that
hold an ASCII letter (the letter itself, its other case, and for `k` and `s`
the Kelvin sign and the long s). -/
def foldChar (c : Char) : Char :=
  if 97 ≤ c.toNat ∧ c.toNat ≤ 122 then Char.ofNat (c.toNat - 32)
  else if c = Char.ofNat 8490 then 'K'
  else if c = Char.ofNat 383 then 'S'
  else c

/-- Whether a member named `key` is stored in the field tagged `field`. -/
def matchesField (key field : String) : Bool :=
  key.data.map foldChar == field.data.map foldChar

/-- The name the decoder gives the kind of a value in an error. -/
def kindName : JSON → String
  | JSON.null => "null"
  | JSON.bool _ => "bool"
  | JSON.number _ => "number"
  | JSON.string _ => "string"
  | JSON.array _ => "array"
  | JSON.object _ => "object"

/-- An `UnmarshalTypeError`. -/
def typeError (v : JSON) (goType : String) : GoError :=
  ⟨"json: cannot unmarshal " ++ kindName v ++ " into Go value of type " ++ goType⟩

/-- The error kept when a second one comes up: the first. -/
def firstError (e1 e2 : Option GoError) : Option GoError :=
  match e1 with
  | some e => some e
  | none => e2

/-- Decoding into a field of type `string`. -/
def decodeString (old : String) (v : JSON) : String × Option GoError :=
  match v with
  | JSON.string s => (s, none)
  | JSON.null => (old, none)
  | _ => (old, some (typeError v "string"))

/-- Decoding the members of an object into a `Link`, in the order of the text. -/
def decodeLinkMembers : Link → List (String × JSON) → Link × Option GoError
  | old, [] => (old, none)
  | old, (k, v) :: rest =>
    if matchesField k "href" then
      let r := decodeString old.Href v
      let t := decodeLinkMembers { old with Href := r.1 } rest
      (t.1, firstError r.2 t.2)
    else if matchesField k "rel" then
      let r := decodeString old.Rel v
      let t := decodeLinkMembers { old with Rel := r.1 } rest
      (t.1, firstError r.2 t.2)
    else decodeLinkMembers old rest

/-- Decoding into a field of type `Link`. -/
def decodeLink (old : Link) (v : JSON) : Link × Option GoError :=
  match v with
  | JSON.object ms => decodeLinkMembers old ms
  | JSON.null => (old, none)
  | _ => (old, some (typeError v "crowd.Link"))

/-- Decoding the members of an object into a `Group`, in the order of the text. -/
def decodeGroupMembers : Group → List (String × JSON) → Group × Option GoError
  | old, [] => (old, none)
  | old, (k, v) :: rest =>
    if matchesField k "name" then
      let r := decodeString old.Name v
      let t := decodeGroupMembers { old with Name := r.1 } rest
      (t.1, firstError r.2 t.2)
    else if matchesField k "link" then
      let r := decodeLink old.Link v
      let t := decodeGroupMembers { old with Link := r.1 } rest
      (t.1, firstError r.2 t.2)
    else decodeGroupMembers old rest

/-- Decoding into a `Group`. -/
def decodeGroup (old : Group) (v : JSON) : Group × Option GoError :=
  match v with
  | JSON.object ms => decodeGroupMembers old ms
  | JSON.null => (old, none)
  | _ => (old, some (typeError v "crowd.Group"))

/-- Decoding into a `*Group`: `null` makes the pointer nil, anything else is
decoded into the group pointed to, a new one if the pointer was nil. -/
def decodeGroupPtr (old : Option Group) (v : JSON) : Option Group × Option GoError :=
  match v with
  | JSON.null => (none, none)
  | _ =>
    let r := decodeGroup (old.getD {}) v
    (some r.1, r.2)

/-- Decoding the elements of an array into a `[]*Group`: element `i` is decoded
into what the slice held at index `i`, a nil pointer past its end. -/
def decodeGroupElems : List (Option Group) → List JSON → List (Option Group) × Option GoError
  | _, [] => ([], none)
  | old, v :: rest =>
    let r := decodeGroupPtr (old.head?.getD none) v
    let t := decodeGroupElems old.tail rest
    (r.1 :: t.1, firstError r.2 t.2)

/-- Decoding into a field of type `[]*Group`. -/
def decodeGroups (old : List (Option Group)) (v : JSON) :
    List (Option Group) × Option GoError :=
  match v with
  | JSON.array es => decodeGroupElems old es
  | JSON.null => ([], none)
  | _ => (old, some (typeError v "[]*crowd.Group"))

/-- Decoding the members of an object into a `listGroups`, in the order of the text. -/
def decodeListGroupsMembers : listGroups → List (String × JSON) → listGroups × Option GoError
  | old, [] => (old, none)
  | old, (k, v) :: rest =>
    if matchesField k "groups" then
      let r := decodeGroups old.Groups v
      let t := decodeListGroupsMembers { old with Groups := r.1 } rest
      (t.1, firstError r.2 t.2)
    else if matchesField k "expand" then
      let r := decodeString old.Expand v
      let t := decodeListGroupsMembers { old with Expand := r.1 } rest
      (t.1, firstError r.2 t.2)
    else decodeListGroupsMembers old rest

/-- Decoding into a `listGroups`. -/
def decodeListGroups (old : listGroups) (v : JSON) : listGroups × Option GoError :=
  match v with
  | JSON.object ms => decodeListGroupsMembers old ms
  | JSON.null => (old, none)
  | _ => (old, some (typeError v "crowd.listGroups"))

/-- The `SyntaxError` of a text that is not valid JSON. -/
def syntaxError : GoError := ⟨"json: syntax error"⟩

/-- `json.Unmarshal(data, &groupList)` for a zero `groupList`: its value
afterwards, and the error returned. -/
def UnmarshalListGroups (data : String) : listGroups × Option GoError :=
  match parse data with
  | none => ({}, some syntaxError)
  | some doc => decodeListGroups {} doc

/-- `json.Unmarshal(data, group)` for `group := new(Group)`: the group
afterwards, and the error returned. -/
def UnmarshalGroup (data : String) : Group × Option GoError :=
  match parse data with
  | none => ({}, some syntaxError)
  | some doc => decodeGroup {} doc

end json

/-! ## The client -/

/-- The standard-library calls taken as parameters: the general theorems hold
for every behaviour of these calls. The examples instantiate them with
`json.UnmarshalListGroups` and `json.UnmarshalGroup` above. -/
structure GoLib where
  /-- `url.Parse` as `http.NewRequest` calls it: the error for a URL it rejects -/
  urlParseError : String → Option GoError
  /-- `json.Unmarshal(data, &v)` for a zero `listGroups`: `v` afterwards and the error -/
  UnmarshalListGroups : String → listGroups × Option GoError
  /-- `json.Unmarshal(data, v)` for `v := new(Group)`: `*v` afterwards and the error -/
  UnmarshalGroup : String → Group × Option GoError

/-- `http.NewRequest` for the methods `GET` and `POST`: it fails when the URL
does not parse. -/
def http.NewRequest (lib : GoLib) (method url : String) (body : Option String) :
    Except GoError http.Request :=
  match lib.urlParseError url with
  | some err => Except.error err
  | none => Except.ok { Method := method, URL := url, Body := body, Header := [] }

/-- An `http.Client`: `Do` sends a request over the network in state `σ` and
yields the response or a transport error, and the state of the network after. The
cookie jar that every operation assigns to `c.Client.Jar` is part of that state. -/
structure http.Client (σ : Type) where
  Do : σ → http.Request → Except GoError http.Response × σ

/-- Modelled from the spec: the client struct `Crowd`, declared in another file
of the package. It holds what `groups.go` reads from it: the base URL `c.url`,
the HTTP client `c.Client` with its session, and the default header set that
every request carries. -/
structure Crowd (σ : Type) where
  url : String
  Client : http.Client σ
  defaultHeader : List (String × String)

variable {σ : Type}

/-- Modelled from the spec: `SetDefaultHeader`, defined in another file of the
package; every request carries "a caller-supplied default header set". -/
def Crowd.SetDefaultHeader (c : Crowd σ) (req : http.Request) : http.Request :=
  { req with Header := c.defaultHeader }

/-- The call `c.Client.Do(req)` in the world `w`. -/
def Crowd.Do (c : Crowd σ) (w : World σ) (req : http.Request) :
    Except GoError http.Response × World σ :=
  let r := c.Client.Do w.net req
  (r.1, { w with net := r.2, sent := w.sent ++ [req] })

/-- The URL GetGroups builds. -/
def GetGroups.url (c : Crowd σ) (user : String) (donested : Bool) : String :=
  let v := url.Values.Set [] "username" user
  let endpoint := if donested then "nested" else "direct"
  c.url ++ "rest/usermanagement/1/user/group/" ++ endpoint ++ "?" ++ v.Encode

/-- GetGroups retrieves a list of groups of which a user is a direct (and
nested if donested is true) member. It never panics. -/
def Crowd.GetGroups (c : Crowd σ) (lib : GoLib) (user : String) (donested : Bool)
    (w : World σ) : (List (Option Group) × Option GoError) × World σ :=
  let groupList : listGroups := {}
  let url := GetGroups.url c user donested
  match http.NewRequest lib "GET" url none with
  | Except.error err => ((groupList.Groups, some err), w)
  | Except.ok req =>
    match c.Do w (c.SetDefaultHeader req) with
    | (Except.error err, w1) => ((groupList.Groups, some err), w1)
    | (Except.ok resp, w1) =>
      if resp.StatusCode = 404 then
        ((groupList.Groups, some (fmt.Errorf "user not found")), w1)
      else if resp.StatusCode = 200 then
        match resp.Body with
        | Except.error err => ((groupList.Groups, some err), w1)
        | Except.ok body =>
          match lib.UnmarshalListGroups body with
          | (groupList, some err) => ((groupList.Groups, some err), w1)
          | (groupList, none) => ((groupList.Groups, none), w1)
      else
        ((groupList.Groups, some (fmt.Errorf ("request failed: " ++ resp.Status))), w1)

/-- GetNestedGroups retrieves a list of groups of which a user is a direct or
nested member. -/
def Crowd.GetNestedGroups (c : Crowd σ) (lib : GoLib) (user : String) (w : World σ) :
    (List (Option Group) × Option GoError) × World σ :=
  c.GetGroups lib user true w

/-- GetDirectGroups retrieves a list of groups of which a user is a direct member. -/
def Crowd.GetDirectGroups (c : Crowd σ) (lib : GoLib) (user : String) (w : World σ) :
    (List (Option Group) × Option GoError) × World σ :=
  c.GetGroups lib user false w

/-- GetGroup returns a group: a `*Group` and an error. -/
def Crowd.GetGroup (c : Crowd σ) (lib : GoLib) (name : String) (w : World σ) :
    Outcome (Option Group × Option GoError) × World σ :=
  let attrURL := "rest/usermanagement/1/group?groupname=" ++ name ++ "&expand=attributes"
  let url := c.url ++ attrURL
  match http.NewRequest lib "GET" url none with
  | Except.error _ => (Outcome.panic, w)
  | Except.ok req =>
    match c.Do w (c.SetDefaultHeader req) with
    | (Except.error _, w1) => (Outcome.panic, w1)
    | (Except.ok resp, w1) =>
      match resp.Body with
      | Except.error _ => (Outcome.panic, w1)
      | Except.ok groupInformation =>
        match lib.UnmarshalGroup groupInformation with
        | (_, some _) => (Outcome.panic, w1)
        | (groupAttributes, none) => (Outcome.ret (some groupAttributes, none), w1)

/-- The map `values` that CreateGroup marshals. -/
def CreateGroup.values (name description : String) : GoMap String :=
  GoMap.put (GoMap.put (GoMap.put (GoMap.put [] "name" name) "type" "GROUP")
    "description" description) "active" "true"

/-- CreateGroup creates a new group. -/
def Crowd.CreateGroup (c : Crowd σ) (lib : GoLib) (name description : String)
    (w : World σ) : Outcome Bool × World σ :=
  let url := c.url ++ "rest/usermanagement/1/group"
  let jsonStr := json.Marshal (CreateGroup.values name description)
  match http.NewRequest lib "POST" url (some jsonStr) with
  | Except.error _ => (Outcome.panic, w)
  | Except.ok req =>
    match c.Do w (c.SetDefaultHeader req) with
    | (Except.error _, w1) => (Outcome.panic, w1)
    | (Except.ok resp, w1) =>
      if resp.StatusCode = 201 then (Outcome.ret true, w1)
      else
        (Outcome.ret false,
          { w1 with stdout := w1.stdout ++ ["request failed: " ++ resp.Status ++ "\n"] })
/-- The search body up to the place of the search string. -/
def findGroups.bodyHead : String :=
  "\x7b\n" ++
  "\t\t\"restriction-type\": \"boolean-search-restriction\",\n" ++
  "\t\t\"boolean-logic\": \"and\",\n" ++
  "\t\t\"restrictions\": [\n" ++
  "\t\t\t\t\x7b\n" ++
  "\t\t\t\t\"restriction-type\": \"property-search-restriction\",\n" ++
  "\t\t\t\t\"property\": \x7b\n" ++
  "\t\t\t\t\t\"name\": \"name\",\n" ++
  "\t\t\t\t\t\"type\": \"STRING\"\n" ++
  "\t\t\t\t\x7d,\n" ++
  "\t\t\t\t\"value\": \""

/-- The search body after the search string. -/
def findGroups.bodyTail : String :=
  "\",\n" ++
  "\t\t\t\t\"match-mode\": \"CONTAINS\"\n" ++
  "\t\t\t\x7d,\n" ++
  "\t\t\t\x7b\n" ++
  "\t\t\t\t\"restriction-type\": \"property-search-restriction\",\n" ++
  "\t\t\t\t\"property\": \x7b\n" ++
  "\t\t\t\t\"name\": \"active\",\n" ++
  "\t\t\t\t\"type\": \"BOOLEAN\"\n" ++
  "\t\t\t\t\x7d,\n" ++
  "\t\t\t\t\"match-mode\": \"EXACTLY_MATCHES\",\n" ++
  "\t\t\t\t\"value\": \"true\"\n" ++
  "\t\t\t\x7d\n" ++
  "\t\t]\n" ++
  "\t\x7d"

/-- The request body findGroups builds for a search string. -/
def findGroups.body (searchString : String) : String :=
  findGroups.bodyHead ++ searchString ++ findGroups.bodyTail

/-- The URL findGroups builds for a page. -/
def findGroups.url (c : Crowd σ) (page : Int) : String :=
  let maxCount : Int := 16
  let v := url.Values.Set (url.Values.Set (url.Values.Set [] "entity-type" "group")
    "max-results" (strconv.Itoa maxCount))
    "start-index" (strconv.Itoa (wrapInt (maxCount * page)))
  let attrURL := "search?"
  c.url ++ attrURL ++ v.Encode

/-- The request findGroups hands to the client for a page, once built. -/
def findGroups.request (c : Crowd σ) (searchString : String) (page : Int) : http.Request :=
  c.SetDefaultHeader
    { Method := "POST", URL := findGroups.url c page,
      Body := some (findGroups.body searchString), Header := [] }

/-- findGroups find groups contains a string; to find all groups that match do
recursive. `fuel` bounds the depth of the recursion. -/
def Crowd.findGroups (c : Crowd σ) (lib : GoLib) (searchString : String) :
    Nat → Int → World σ → Outcome (listGroups × Option GoError) × World σ
  | 0, _, w => (Outcome.outOfFuel, w)
  | fuel + 1, page, w =>
    let resultList : listGroups := {}
    let url := findGroups.url c page
    let body := findGroups.body searchString
    match http.NewRequest lib "POST" url (some body) with
    | Except.error _ => (Outcome.panic, w)
    | Except.ok req =>
      match c.Do w (c.SetDefaultHeader req) with
      | (Except.error _, w1) => (Outcome.panic, w1)
      | (Except.ok resp, w1) =>
        match resp.Body with
        | Except.error _ => (Outcome.panic, w1)
        | Except.ok groupInformation =>
          match lib.UnmarshalListGroups groupInformation with
          | (_, some _) => (Outcome.panic, w1)
          | (groupList, none) =>
            let resultCount := groupList.Groups.length
            let resultList : listGroups :=
              { resultList with Groups := resultList.Groups ++ groupList.Groups }
            if resultCount ≥ 16 then
              match Crowd.findGroups c lib searchString fuel (wrapInt (page + 1)) w1 with
              | (Outcome.ret (groupList, err), w2) =>
                match err with
                | some _ => (Outcome.panic, w2)
                | none =>
                  (Outcome.ret
                    ({ resultList with Groups := resultList.Groups ++ groupList.Groups }, err),
                    w2)
              | (Outcome.panic, w2) => (Outcome.panic, w2)
              | (Outcome.outOfFuel, w2) => (Outcome.outOfFuel, w2)
            else (Outcome.ret (resultList, none), w1)

/-- FindGroups find groups contains a string. -/
def Crowd.FindGroups (c : Crowd σ) (lib : GoLib) (name : String) (fuel : Nat)
    (w : World σ) : Outcome (List (Option Group) × Option GoError) × World σ :=
  match c.findGroups lib name fuel 0 w with
  | (Outcome.ret (result, err), w1) => (Outcome.ret (result.Groups, err), w1)
  | (Outcome.panic, w1) => (Outcome.panic, w1)
  | (Outcome.outOfFuel, w1) => (Outcome.outOfFuel, w1)

/-! ## A scripted backend for the examples -/

/-- The standard library with the decoders of `encoding/json` above and a
`url.Parse` that accepts the URLs of the examples. -/
def stdLib : GoLib where
  urlParseError := fun _ => none
  UnmarshalListGroups := json.UnmarshalListGroups
  UnmarshalGroup := json.UnmarshalGroup

/-- A backend that answers the requests it gets with the given responses, one
after the other, and fails the transport once they are used up. -/
def scriptedClient : http.Client (List http.Response) where
  Do := fun pending _ =>
    match pending with
    | [] => (Except.error ⟨"connection refused"⟩, [])
    | resp :: rest => (Except.ok resp, rest)

/-- A client of the scripted backend. -/
def testCrowd : Crowd (List http.Response) where
  url := "http://crowd.test/"
  Client := scriptedClient
  defaultHeader := [("Accept", "application/json")]

/-- The world in which the scripted backend is about to serve `responses`. -/
def scriptedWorld (responses : List http.Response) : World (List http.Response) :=
  { net := responses, sent := [], stdout := [] }

/-- The JSON text of a group list with `n` groups named `prefix0`, `prefix1`, ... -/
def groupsBody (namePrefix : String) (n : Nat) : String :=
  "\x7b\"expand\":\"group\",\"groups\":[" ++
    ",".intercalate ((List.range n).map fun i =>
      "\x7b\"link\":\x7b\"href\":\"http://crowd.test/group?groupname=" ++ namePrefix ++
        (Nat.toDigits 10 i).asString ++ "\",\"rel\":\"self\"\x7d,\"name\":\"" ++ namePrefix ++
        (Nat.toDigits 10 i).asString ++ "\"\x7d") ++
    "]\x7d"

/-- A response with status 200 whose body lists `n` groups. -/
def pageResponse (namePrefix : String) (n : Nat) : http.Response :=
  { StatusCode := 200, Status := "200 OK", Body := Except.ok (groupsBody namePrefix n) }

/-- The member of an object with the given key, the first if there are several. -/
def JSON.member (key : String) : JSON → Option JSON
  | JSON.object ms => (ms.find? fun kv => kv.1 == key).map fun kv => kv.2
  | _ => none

/-- The search request for page `i`: a POST to `search` whose query carries
`max-results=16` and the start index `16 * i` (as a Go `int`), with the search
body and the default header. -/
def searchRequest (c : Crowd σ) (searchString : String) (i : Nat) : http.Request :=
  { Method := "POST",
    URL := c.url ++ "search?entity-type=group&max-results=16&start-index=" ++
      strconv.Itoa (wrapInt (16 * (i : Int))),
    Body := some (findGroups.body searchString),
    Header := c.defaultHeader }

/-- The three pages the scripted backend serves in the example: 16, 16 and 3 groups. -/
def examplePages : List http.Response :=
  [pageResponse "a" 16, pageResponse "b" 16, pageResponse "c" 3]

/-- The body CreateGroup posts for the group `devs` described as `Developers`. -/
def exampleCreateBody : String :=
  "\x7b\"active\":\"true\",\"description\":\"Developers\",\"name\":\"devs\"," ++
    "\"type\":\"GROUP\"\x7d"

/-- A group detail record as the server sends it for `expand=attributes`, with
the given description, active flag and attribute list. -/
def detailBody (description active attributes : String) : String :=
  "\x7b\"expand\":\"attributes\"," ++
    "\"link\":\x7b\"href\":\"http://crowd.test/group?groupname=devs\",\"rel\":\"self\"\x7d," ++
    "\"name\":\"devs\",\"description\":\"" ++ description ++ "\",\"type\":\"GROUP\"," ++
    "\"active\":" ++ active ++ ",\"attributes\":\x7b\"attributes\":" ++ attributes ++
    ",\"link\":\x7b\"href\":\"http://crowd.test/group/attribute?groupname=devs\"," ++
    "\"rel\":\"self\"\x7d\x7d\x7d"

/-- The detail record of an active group `devs` with one attribute. -/
def detailBodyA : String :=
  detailBody "Developers" "true" "[\x7b\"name\":\"team\",\"values\":[\"core\"]\x7d]"

/-- The detail record of an inactive group `devs` with another description and
no attribute. -/
def detailBodyB : String := detailBody "Operations" "false" "[]"

/-- The body of an error response of the server. -/
def errorBody : String :=
  "\x7b\"reason\":\"OPERATION_FAILED\",\"message\":\"search is not available\"\x7d"

/-- The search document: active groups whose name contains `value`. -/
def searchDocument (value : String) : JSON :=
  JSON.object
    [("restriction-type", JSON.string "boolean-search-restriction"),
     ("boolean-logic", JSON.string "and"),
     ("restrictions", JSON.array
       [JSON.object
          [("restriction-type", JSON.string "property-search-restriction"),
           ("property", JSON.object
             [("name", JSON.string "name"), ("type", JSON.string "STRING")]),
           ("value", JSON.string value),
           ("match-mode", JSON.string "CONTAINS")],
        JSON.object
          [("restriction-type", JSON.string "property-search-restriction"),
           ("property", JSON.object
             [("name", JSON.string "active"), ("type", JSON.string "BOOLEAN")]),
           ("match-mode", JSON.string "EXACTLY_MATCHES"),
           ("value", JSON.string "true")]])]

/-- The arrays and objects open where the search string stands in the body. -/
def searchStack : List json.Frame :=
  [json.Frame.object
     [("restriction-type", JSON.string "property-search-restriction"),
      ("property", JSON.object
        [("name", JSON.string "name"), ("type", JSON.string "STRING")])] "value",
   json.Frame.array [],
   json.Frame.object
     [("restriction-type", JSON.string "boolean-search-restriction"),
      ("boolean-logic", JSON.string "and")] "restrictions"]

/-! # Theorems -/

/-! ## CreateGroup -/

/-- C3. For every name and description, when the request is built and sent and
a response is received, CreateGroup returns, and the value it returns is true
if and only if the status code of the response is 201. -/
theorem CreateGroup_true_iff_201 (c : Crowd σ) (lib : GoLib) (name description : String)
    (w : World σ) (req : http.Request) (resp : http.Response) (net1 : σ)
    (hreq : http.NewRequest lib "POST" (c.url ++ "rest/usermanagement/1/group")
      (some (json.Marshal (CreateGroup.values name description))) = Except.ok req)
    (hdo : c.Client.Do w.net (c.SetDefaultHeader req) = (Except.ok resp, net1)) :
    ∃ status : Bool, (c.CreateGroup lib name description w).1 = Outcome.ret status ∧
      (status = true ↔ resp.StatusCode = 201) := by
  unfold Crowd.CreateGroup
  simp only [hreq, Crowd.Do, hdo]
  by_cases h : resp.StatusCode = 201
  · exact ⟨true, by simp [h], by simp [h]⟩
  · exact ⟨false, by simp [h], by simp [h]⟩

/-- Witness for C3: a backend answering 201 Created. -/
theorem CreateGroup_true_iff_201_witness :
    ∃ status : Bool,
      (testCrowd.CreateGroup stdLib "devs" "Developers"
        (scriptedWorld [⟨201, "201 Created", Except.ok ""⟩])).1 = Outcome.ret status ∧
      (status = true ↔ (201 : Int) = 201) :=
  CreateGroup_true_iff_201 testCrowd stdLib "devs" "Developers"
    (scriptedWorld [⟨201, "201 Created", Except.ok ""⟩]) _ ⟨201, "201 Created", Except.ok ""⟩ []
    rfl rfl

/-- Counterexample for C7: against a backend answering 400, 403 or 409 the
value CreateGroup returns is the same bare `false` each time. -/
theorem CreateGroup_failures_indistinguishable :
    (testCrowd.CreateGroup stdLib "devs" "Developers"
      (scriptedWorld [⟨400, "400 Bad Request", Except.ok ""⟩])).1 = Outcome.ret false ∧
    (testCrowd.CreateGroup stdLib "devs" "Developers"
      (scriptedWorld [⟨403, "403 Forbidden", Except.ok ""⟩])).1 = Outcome.ret false ∧
    (testCrowd.CreateGroup stdLib "devs" "Developers"
      (scriptedWorld [⟨409, "409 Conflict", Except.ok ""⟩])).1 = Outcome.ret false := by
  decide

/-- C7, amended. When the request is built and sent and a response is received,
CreateGroup returns true for status 201 and prints nothing; for every other
status, 400, 403 and 409 among them, it returns the same bare false, and the
status text of the response is only printed on standard output as the line
`request failed: <status>`. -/
theorem CreateGroup_failure_only_printed (c : Crowd σ) (lib : GoLib)
    (name description : String) (w : World σ) (req : http.Request)
    (resp : http.Response) (net1 : σ)
    (hreq : http.NewRequest lib "POST" (c.url ++ "rest/usermanagement/1/group")
      (some (json.Marshal (CreateGroup.values name description))) = Except.ok req)
    (hdo : c.Client.Do w.net (c.SetDefaultHeader req) = (Except.ok resp, net1)) :
    (resp.StatusCode = 201 →
      c.CreateGroup lib name description w =
        (Outcome.ret true,
          { net := net1, sent := w.sent ++ [c.SetDefaultHeader req], stdout := w.stdout })) ∧
    (resp.StatusCode ≠ 201 →
      c.CreateGroup lib name description w =
        (Outcome.ret false,
          { net := net1, sent := w.sent ++ [c.SetDefaultHeader req],
            stdout := w.stdout ++ ["request failed: " ++ resp.Status ++ "\n"] })) := by
  unfold Crowd.CreateGroup
  simp only [hreq, Crowd.Do, hdo]
  constructor
  · intro h
    simp [h]
  · intro h
    simp [h]

/-- Witness for the amended C7: a backend answering 409 Conflict. -/
theorem CreateGroup_failure_only_printed_witness :
    testCrowd.CreateGroup stdLib "devs" "Developers"
        (scriptedWorld [⟨409, "409 Conflict", Except.ok ""⟩]) =
      (Outcome.ret false,
        { net := [],
          sent := [testCrowd.SetDefaultHeader
            { Method := "POST", URL := "http://crowd.test/rest/usermanagement/1/group",
              Body := some (json.Marshal (CreateGroup.values "devs" "Developers")),
              Header := [] }],
          stdout := ["request failed: 409 Conflict\n"] }) :=
  (CreateGroup_failure_only_printed testCrowd stdLib "devs" "Developers"
    (scriptedWorld [⟨409, "409 Conflict", Except.ok ""⟩]) _ ⟨409, "409 Conflict", Except.ok ""⟩ []
    rfl rfl).2 (by decide)

/-! ## GetGroups -/

/-- The text of the NotFound error differs from that of every RequestError. -/
theorem notFound_ne_requestError (status : String) :
    fmt.Errorf "user not found" ≠ fmt.Errorf ("request failed: " ++ status) := by
  intro h
  have h1 : "user not found".data = ("request failed: " ++ status).data :=
    congrArg (fun e => e.msg.data) h
  rw [String.data_append] at h1
  have h2 := congrArg List.head? h1
  simp at h2

/-- C2. For every username and nesting flag, when the request is built and sent
and a response is received, GetGroups classifies the response by its status
code: 404 yields the error `user not found` (NotFound); every status other
than 200 and 404 yields the error `request failed: <status text>`
(RequestError); status 200 alone goes on to read and decode the body, and the
result is then what reading and decoding give. The NotFound error differs from
the RequestError of every status text. -/
theorem GetGroups_classifies_status (c : Crowd σ) (lib : GoLib) (user : String)
    (donested : Bool) (w : World σ) (req : http.Request) (resp : http.Response) (net1 : σ)
    (hreq : http.NewRequest lib "GET" (GetGroups.url c user donested) none = Except.ok req)
    (hdo : c.Client.Do w.net (c.SetDefaultHeader req) = (Except.ok resp, net1)) :
    (resp.StatusCode = 404 →
      (c.GetGroups lib user donested w).1 = ([], some (fmt.Errorf "user not found"))) ∧
    (resp.StatusCode ≠ 200 → resp.StatusCode ≠ 404 →
      (c.GetGroups lib user donested w).1 =
        ([], some (fmt.Errorf ("request failed: " ++ resp.Status)))) ∧
    (resp.StatusCode = 200 →
      (c.GetGroups lib user donested w).1 =
        match resp.Body with
        | Except.error err => ([], some err)
        | Except.ok body =>
          ((lib.UnmarshalListGroups body).1.Groups, (lib.UnmarshalListGroups body).2)) ∧
    (∀ status : String,
      fmt.Errorf "user not found" ≠ fmt.Errorf ("request failed: " ++ status)) := by
  unfold Crowd.GetGroups
  simp only [hreq, Crowd.Do, hdo]
  refine ⟨?_, ?_, ?_, notFound_ne_requestError⟩
  · intro h
    simp [h]
  · intro h200 h404
    simp [h200, h404]
  · intro h
    simp only [h]
    cases hb : resp.Body with
    | error err => simp
    | ok body =>
      simp only
      rcases hd : lib.UnmarshalListGroups body with ⟨gl, _ | err⟩ <;> simp

/-- Witness for C2: a backend answering 404 Not Found. -/
theorem GetGroups_classifies_status_witness :
    (testCrowd.GetGroups stdLib "alice" true
      (scriptedWorld [⟨404, "404 Not Found", Except.ok ""⟩])).1 =
      ([], some (fmt.Errorf "user not found")) :=
  (GetGroups_classifies_status testCrowd stdLib "alice" true
    (scriptedWorld [⟨404, "404 Not Found", Except.ok ""⟩]) _ ⟨404, "404 Not Found", Except.ok ""⟩ []
    rfl rfl).1 rfl

/-- C4. For every username and nesting flag, when the response has status 200
and its body decodes, without an error, to a group list whose groups array is
empty, GetGroups returns the empty sequence of groups and a nil error. -/
theorem GetGroups_empty_groups (c : Crowd σ) (lib : GoLib) (user : String)
    (donested : Bool) (w : World σ) (req : http.Request) (resp : http.Response) (net1 : σ)
    (body : String) (groupList : listGroups)
    (hreq : http.NewRequest lib "GET" (GetGroups.url c user donested) none = Except.ok req)
    (hdo : c.Client.Do w.net (c.SetDefaultHeader req) = (Except.ok resp, net1))
    (hstatus : resp.StatusCode = 200)
    (hbody : resp.Body = Except.ok body)
    (hdecode : lib.UnmarshalListGroups body = (groupList, none))
    (hempty : groupList.Groups = []) :
    (c.GetGroups lib user donested w).1 = ([], none) := by
  unfold Crowd.GetGroups
  simp [hreq, Crowd.Do, hdo, hstatus, hbody, hdecode, hempty]

/-- Witness for C4: the body `{"expand":"group","groups":[]}` with status 200,
decoded by `encoding/json`. -/
theorem GetGroups_empty_groups_witness :
    (testCrowd.GetGroups stdLib "alice" false
      (scriptedWorld [⟨200, "200 OK",
        Except.ok "\x7b\"expand\":\"group\",\"groups\":[]\x7d"⟩])).1 = ([], none) :=
  GetGroups_empty_groups testCrowd stdLib "alice" false
    (scriptedWorld [⟨200, "200 OK", Except.ok "\x7b\"expand\":\"group\",\"groups\":[]\x7d"⟩])
    _ ⟨200, "200 OK", Except.ok "\x7b\"expand\":\"group\",\"groups\":[]\x7d"⟩ []
    "\x7b\"expand\":\"group\",\"groups\":[]\x7d" ⟨[], "group"⟩ rfl rfl rfl rfl (by decide) rfl

/-! ## FindGroups -/

/-- Whatever findGroups returns, the error it returns is nil. -/
theorem findGroups_error_nil (c : Crowd σ) (lib : GoLib) (s : String) :
    ∀ (fuel : Nat) (page : Int) (w : World σ) (r : listGroups) (err : Option GoError)
      (w1 : World σ),
      c.findGroups lib s fuel page w = (Outcome.ret (r, err), w1) → err = none := by
  intro fuel
  induction fuel with
  | zero =>
    intro page w r err w1 h
    simp [Crowd.findGroups] at h
  | succ n ih =>
    intro page w r err w1 h
    simp only [Crowd.findGroups] at h
    split at h
    · simp at h
    · split at h
      · simp at h
      · split at h
        · simp at h
        · split at h
          · simp at h
          · split at h
            · split at h
              · split at h
                · simp at h
                · simp only [Prod.mk.injEq, Outcome.ret.injEq] at h
                  exact h.1.2.symm
              · simp at h
              · simp at h
            · simp only [Prod.mk.injEq, Outcome.ret.injEq] at h
              exact h.1.2.symm

/-- Wrapping is idempotent under the successor: the page after page `wrapInt j`
is page `wrapInt (j + 1)`. -/
theorem wrapInt_succ (j : Int) : wrapInt (wrapInt j + 1) = wrapInt (j + 1) := by
  unfold wrapInt
  omega

/-- The start index of page `wrapInt j` is `16 * j`, wrapped. -/
theorem wrapInt_mul_wrapInt (j : Int) : wrapInt (16 * wrapInt j) = wrapInt (16 * j) := by
  unfold wrapInt
  omega

/-- A number in the range of an `int` is not changed by wrapping. -/
theorem wrapInt_of_inRange (x : Int) (h0 : -2 ^ 63 ≤ x) (h1 : x < 2 ^ 63) : wrapInt x = x := by
  unfold wrapInt
  omega

/-- A decimal digit is written as it is by `url.QueryEscape`. -/
theorem digitChar_plain (d : Nat) (h : d < 10) :
    Nat.digitChar d ≠ ' ' ∧ url.shouldEscape (Nat.digitChar d) = false := by
  interval_cases d <;> decide

/-- Every character of a decimal numeral is written as it is by `url.QueryEscape`. -/
theorem toDigitsCore_plain (fuel : Nat) :
    ∀ (n : Nat) (ds : List Char),
      (∀ c ∈ ds, c ≠ ' ' ∧ url.shouldEscape c = false) →
      ∀ c ∈ Nat.toDigitsCore 10 fuel n ds, c ≠ ' ' ∧ url.shouldEscape c = false := by
  induction fuel with
  | zero =>
    intro n ds h c hc
    simpa [Nat.toDigitsCore] using h c hc
  | succ f ih =>
    intro n ds h c hc
    simp only [Nat.toDigitsCore] at hc
    have hd : ∀ c ∈ Nat.digitChar (n % 10) :: ds, c ≠ ' ' ∧ url.shouldEscape c = false := by
      intro c hc
      rcases List.mem_cons.mp hc with rfl | hc
      · exact digitChar_plain _ (Nat.mod_lt _ (by decide))
      · exact h c hc
    split at hc
    · exact hd c hc
    · exact ih _ _ hd c hc

/-- A text without characters to escape is its own query escape. -/
theorem QueryEscape_of_plain (cs : List Char)
    (h : ∀ c ∈ cs, c ≠ ' ' ∧ url.shouldEscape c = false) :
    url.QueryEscape (String.mk cs) = String.mk cs := by
  unfold url.QueryEscape
  congr 1
  induction cs with
  | nil => rfl
  | cons c cs ih =>
    have hc := h c (List.mem_cons_self _ _)
    simp only [List.flatMap_cons, hc.1, hc.2, if_false, Bool.false_eq_true]
    simpa using ih (fun d hd => h d (List.mem_cons_of_mem _ hd))

/-- The text of an `int` is its own query escape. -/
theorem QueryEscape_Itoa (i : Int) : url.QueryEscape (strconv.Itoa i) = strconv.Itoa i := by
  cases i with
  | ofNat n =>
    exact QueryEscape_of_plain _ (toDigitsCore_plain _ _ _ (by simp))
  | negSucc n =>
    have h : strconv.Itoa (Int.negSucc n) = String.mk ('-' :: Nat.toDigits 10 (n + 1)) := rfl
    rw [h]
    apply QueryEscape_of_plain
    intro c hc
    rcases List.mem_cons.mp hc with rfl | hc
    · decide
    · exact toDigitsCore_plain _ _ _ (by simp) c hc

/-- The URL of a search page: the query carries `entity-type=group`,
`max-results=16` and the start index `16 * page`. -/
theorem findGroups_url_eq (c : Crowd σ) (page : Int) :
    findGroups.url c page =
      c.url ++ "search?entity-type=group&max-results=16&start-index=" ++
        strconv.Itoa (wrapInt (16 * page)) := by
  have h1 : url.QueryEscape "entity-type" = "entity-type" := by decide
  have h2 : url.QueryEscape "group" = "group" := by decide
  have h3 : url.QueryEscape "max-results" = "max-results" := by decide
  have h4 : url.QueryEscape "start-index" = "start-index" := by decide
  have h5 : strconv.Itoa 16 = "16" := by decide
  have h6 : url.QueryEscape "16" = "16" := by decide
  have hv : url.Values.Set (url.Values.Set (url.Values.Set [] "entity-type" "group")
      "max-results" (strconv.Itoa 16)) "start-index" (strconv.Itoa (wrapInt (16 * page))) =
      [("entity-type", ["group"]), ("max-results", ["16"]),
        ("start-index", [strconv.Itoa (wrapInt (16 * page))])] := by
    rw [h5]
    rfl
  unfold findGroups.url
  simp only [hv, url.Values.Encode, List.flatMap_cons, List.flatMap_nil, List.map_cons,
    List.map_nil, List.append_nil, List.cons_append, List.nil_append, h1, h2, h3, h4, h6,
    QueryEscape_Itoa]
  apply String.ext
  simp only [String.intercalate, String.intercalate.go, String.data_append, List.append_assoc]
  rfl

/-- One run of findGroups over the pages `j`, ..., `j + d` of a backend whose
pages before the last are full and whose last page is short. -/
theorem findGroups_pages (c : Crowd σ) (lib : GoLib) (s : String) (k : Nat)
    (net : Nat → σ) (resp : Nat → http.Response) (body : Nat → String)
    (page : Nat → listGroups)
    (hurl : ∀ i ≤ k, lib.urlParseError (findGroups.url c (wrapInt i)) = none)
    (hdo : ∀ i ≤ k, c.Client.Do (net i) (findGroups.request c s (wrapInt i)) =
      (Except.ok (resp i), net (i + 1)))
    (hbody : ∀ i ≤ k, (resp i).Body = Except.ok (body i))
    (hdec : ∀ i ≤ k, lib.UnmarshalListGroups (body i) = (page i, none))
    (hfull : ∀ i < k, (page i).Groups.length = 16)
    (hlast : (page k).Groups.length < 16) :
    ∀ (d j fuel : Nat) (w : World σ), j + d = k → d < fuel → w.net = net j →
      c.findGroups lib s fuel (wrapInt j) w =
        (Outcome.ret
          ({ Groups := (List.range' j (d + 1)).flatMap fun (i : Nat) => (page i).Groups,
             Expand := "" }, none),
          { net := net (k + 1),
            sent := w.sent ++ (List.range' j (d + 1)).map fun (i : Nat) =>
              findGroups.request c s (wrapInt i),
            stdout := w.stdout }) := by
  intro d
  induction d with
  | zero =>
    intro j fuel w hj hfuel hw
    obtain ⟨f, rfl⟩ : ∃ f, fuel = f + 1 := ⟨fuel - 1, by omega⟩
    have hjk : j = k := by omega
    subst hjk
    have hreq : http.NewRequest lib "POST" (findGroups.url c (wrapInt j))
        (some (findGroups.body s)) = Except.ok
          ⟨"POST", findGroups.url c (wrapInt j), some (findGroups.body s), []⟩ := by
      simp [http.NewRequest, hurl j (le_refl _)]
    have hdo1 := hdo j (le_refl _)
    unfold findGroups.request at hdo1
    have hnot : ¬ (page j).Groups.length ≥ 16 := by omega
    simp only [Crowd.findGroups, hreq, Crowd.Do, hw, hdo1, hbody j (le_refl _),
      hdec j (le_refl _), hnot, if_false, List.nil_append]
    simp [List.range', findGroups.request]
  | succ d ih =>
    intro j fuel w hj hfuel hw
    obtain ⟨f, rfl⟩ : ∃ f, fuel = f + 1 := ⟨fuel - 1, by omega⟩
    have hjk : j ≤ k := by omega
    have hreq : http.NewRequest lib "POST" (findGroups.url c (wrapInt j))
        (some (findGroups.body s)) = Except.ok
          ⟨"POST", findGroups.url c (wrapInt j), some (findGroups.body s), []⟩ := by
      simp [http.NewRequest, hurl j hjk]
    have hdo1 := hdo j hjk
    unfold findGroups.request at hdo1
    have hge : (page j).Groups.length ≥ 16 := by
      have := hfull j (by omega)
      omega
    have hnext : wrapInt (wrapInt (j : Int) + 1) = wrapInt ((j + 1 : Nat) : Int) := by
      rw [wrapInt_succ]
      push_cast
      rfl
    have hrec := ih (j + 1) f
      { net := net (j + 1), sent := w.sent ++ [findGroups.request c s (wrapInt j)],
        stdout := w.stdout } (by omega) (by omega) rfl
    unfold findGroups.request at hrec
    simp only [Crowd.findGroups, hreq, Crowd.Do, hw, hdo1, hbody j hjk, hdec j hjk, hge,
      if_true, List.nil_append, hnext, hrec]
    simp [List.range'_succ j (d + 1), findGroups.request]

/-- The request findGroups builds for page `wrapInt i` is the search request
for page `i`. -/
theorem findGroups_request_eq (c : Crowd σ) (s : String) (i : Nat) :
    findGroups.request c s (wrapInt i) = searchRequest c s i := by
  simp [findGroups.request, searchRequest, Crowd.SetDefaultHeader, findGroups_url_eq,
    wrapInt_mul_wrapInt]

/-- C1. For every search string and every backend: if for each page `i` of
`0, ..., k` the search request for page `i` (max-results=16, start-index=16*i)
is answered with a response whose body decodes without an error to the group
list `page i`, if the pages `0, ..., k-1` hold exactly 16 groups and page `k`
holds fewer than 16 (possibly none), then FindGroups, given room for `k + 1`
nested calls, returns the groups of the pages `0, 1, ..., k` concatenated in
that order with a nil error, and hands to the client exactly the `k + 1` search
requests for the pages `0, ..., k`, in that order. The start index is computed
in Go `int` arithmetic; it is the decimal numeral of `16 * i` as long as that
fits an `int`. -/
theorem FindGroups_concatenates_pages (c : Crowd σ) (lib : GoLib) (name : String)
    (k fuel : Nat) (w : World σ) (net : Nat → σ) (resp : Nat → http.Response)
    (body : Nat → String) (page : Nat → listGroups)
    (hfuel : k < fuel)
    (hnet : w.net = net 0)
    (hurl : ∀ i ≤ k, lib.urlParseError (searchRequest c name i).URL = none)
    (hdo : ∀ i ≤ k, c.Client.Do (net i) (searchRequest c name i) =
      (Except.ok (resp i), net (i + 1)))
    (hbody : ∀ i ≤ k, (resp i).Body = Except.ok (body i))
    (hdec : ∀ i ≤ k, lib.UnmarshalListGroups (body i) = (page i, none))
    (hfull : ∀ i < k, (page i).Groups.length = 16)
    (hlast : (page k).Groups.length < 16) :
    c.FindGroups lib name fuel w =
      (Outcome.ret ((List.range (k + 1)).flatMap (fun (i : Nat) => (page i).Groups), none),
        { net := net (k + 1),
          sent := w.sent ++ (List.range (k + 1)).map (fun (i : Nat) => searchRequest c name i),
          stdout := w.stdout }) ∧
    ((List.range (k + 1)).map (fun (i : Nat) => searchRequest c name i)).length = k + 1 ∧
    ∀ i : Nat, 16 * i < 2 ^ 63 →
      (searchRequest c name i).URL =
        c.url ++ "search?entity-type=group&max-results=16&start-index=" ++
          (Nat.toDigits 10 (16 * i)).asString := by
  refine ⟨?_, by simp, ?_⟩
  · have hurl1 : ∀ i ≤ k, lib.urlParseError (findGroups.url c (wrapInt i)) = none := by
      intro i hi
      have h := hurl i hi
      rw [← findGroups_request_eq] at h
      exact h
    have hdo1 : ∀ i ≤ k, c.Client.Do (net i) (findGroups.request c name (wrapInt i)) =
        (Except.ok (resp i), net (i + 1)) := by
      intro i hi
      rw [findGroups_request_eq]
      exact hdo i hi
    have hrun := findGroups_pages c lib name k net resp body page hurl1 hdo1 hbody hdec hfull
      hlast k 0 fuel w (by omega) hfuel hnet
    have h0 : wrapInt ((0 : Nat) : Int) = 0 := by decide
    rw [h0] at hrun
    unfold Crowd.FindGroups
    rw [hrun]
    simp [List.range_eq_range', findGroups_request_eq]
  · intro i hi
    have hw : wrapInt (16 * (i : Int)) = ((16 * i : Nat) : Int) := by
      rw [wrapInt_of_inRange] <;> push_cast <;> omega
    simp only [searchRequest, hw]
    rfl

/-- Witness for C1: a backend serving 16, 16 and 3 groups for consecutive pages.
FindGroups returns the 35 groups in page order and sends the three search
requests with start index 0, 16 and 32. -/
theorem FindGroups_concatenates_pages_witness :
    (testCrowd.FindGroups stdLib "adm" 3 (scriptedWorld examplePages) =
      (Outcome.ret ((List.range 3).flatMap (fun (i : Nat) =>
          (json.UnmarshalListGroups
            (groupsBody (["a", "b", "c"].getD i "") ([16, 16, 3].getD i 0))).1.Groups), none),
        { net := [],
          sent := [] ++ (List.range 3).map (fun (i : Nat) => searchRequest testCrowd "adm" i),
          stdout := [] })) ∧
    ((List.range 3).flatMap (fun (i : Nat) =>
      (json.UnmarshalListGroups
        (groupsBody (["a", "b", "c"].getD i "") ([16, 16, 3].getD i 0))).1.Groups)).length = 35 ∧
    (List.range 3).map (fun (i : Nat) => (searchRequest testCrowd "adm" i).URL) =
      ["http://crowd.test/search?entity-type=group&max-results=16&start-index=0",
       "http://crowd.test/search?entity-type=group&max-results=16&start-index=16",
       "http://crowd.test/search?entity-type=group&max-results=16&start-index=32"] :=
  ⟨(FindGroups_concatenates_pages testCrowd stdLib "adm" 2 3 (scriptedWorld examplePages)
      (fun i => examplePages.drop i)
      (fun i => pageResponse (["a", "b", "c"].getD i "") ([16, 16, 3].getD i 0))
      (fun i => groupsBody (["a", "b", "c"].getD i "") ([16, 16, 3].getD i 0))
      (fun i => (json.UnmarshalListGroups
        (groupsBody (["a", "b", "c"].getD i "") ([16, 16, 3].getD i 0))).1)
      (by decide) rfl
      (by intro i hi; rfl)
      (by intro i hi; interval_cases i <;> rfl)
      (by intro i hi; rfl)
      (by intro i hi; interval_cases i <;> decide)
      (by intro i hi; interval_cases i <;> decide)
      (by decide)).1,
    by decide, by decide⟩

/-- An instance of C1: a backend with one page of fewer than 16 groups gets
exactly one request. -/
theorem FindGroups_single_short_page :
    (testCrowd.FindGroups stdLib "adm" 1 (scriptedWorld [pageResponse "a" 5])).1 =
      Outcome.ret ((json.UnmarshalListGroups (groupsBody "a" 5)).1.Groups, none) ∧
    (json.UnmarshalListGroups (groupsBody "a" 5)).1.Groups.length = 5 ∧
    (testCrowd.FindGroups stdLib "adm" 1 (scriptedWorld [pageResponse "a" 5])).2.sent =
      [searchRequest testCrowd "adm" 0] := by
  refine ⟨by decide, by decide, by decide⟩

/-- An instance of C1: a backend with 32 groups serves 16, 16 and 0 groups;
FindGroups sends three requests, the last answered with no group, and returns
the 32 groups. -/
theorem FindGroups_exact_multiple :
    (testCrowd.FindGroups stdLib "adm" 3
      (scriptedWorld [pageResponse "a" 16, pageResponse "b" 16, pageResponse "c" 0])).1 =
      Outcome.ret ((json.UnmarshalListGroups (groupsBody "a" 16)).1.Groups ++
        (json.UnmarshalListGroups (groupsBody "b" 16)).1.Groups, none) ∧
    ((json.UnmarshalListGroups (groupsBody "a" 16)).1.Groups ++
      (json.UnmarshalListGroups (groupsBody "b" 16)).1.Groups).length = 32 ∧
    (json.UnmarshalListGroups (groupsBody "c" 0)).1.Groups = [] ∧
    (testCrowd.FindGroups stdLib "adm" 3
      (scriptedWorld [pageResponse "a" 16, pageResponse "b" 16, pageResponse "c" 0])).2.sent =
      [searchRequest testCrowd "adm" 0, searchRequest testCrowd "adm" 1,
        searchRequest testCrowd "adm" 2] := by
  refine ⟨by decide, by decide, by decide, by decide⟩

/-- C10. Whenever FindGroups, or the recursive findGroups at any page, returns
normally, the error it returns is nil. Every failure on a page ends in a panic
instead: a request that cannot be built, a transport failure, a failure to
read the body and a body that does not decode make findGroups panic, and so
does a panic of the nested call for the next page. -/
theorem FindGroups_never_returns_error (c : Crowd σ) (lib : GoLib) (name : String)
    (fuel : Nat) (page : Int) (w : World σ) :
    (∀ groups err w1,
      c.FindGroups lib name fuel w = (Outcome.ret (groups, err), w1) → err = none) ∧
    (∀ result err w1,
      c.findGroups lib name fuel page w = (Outcome.ret (result, err), w1) → err = none) ∧
    (∀ e, http.NewRequest lib "POST" (findGroups.url c page) (some (findGroups.body name)) =
        Except.error e →
      c.findGroups lib name (fuel + 1) page w = (Outcome.panic, w)) ∧
    (lib.urlParseError (findGroups.url c page) = none →
      (∀ e, (c.Do w (findGroups.request c name page)).1 = Except.error e →
        c.findGroups lib name (fuel + 1) page w =
          (Outcome.panic, (c.Do w (findGroups.request c name page)).2)) ∧
      (∀ resp e, (c.Do w (findGroups.request c name page)).1 = Except.ok resp →
        resp.Body = Except.error e →
        c.findGroups lib name (fuel + 1) page w =
          (Outcome.panic, (c.Do w (findGroups.request c name page)).2)) ∧
      (∀ resp body e, (c.Do w (findGroups.request c name page)).1 = Except.ok resp →
        resp.Body = Except.ok body → (lib.UnmarshalListGroups body).2 = some e →
        c.findGroups lib name (fuel + 1) page w =
          (Outcome.panic, (c.Do w (findGroups.request c name page)).2)) ∧
      (∀ resp body groupList w2,
        (c.Do w (findGroups.request c name page)).1 = Except.ok resp →
        resp.Body = Except.ok body → lib.UnmarshalListGroups body = (groupList, none) →
        groupList.Groups.length ≥ 16 →
        c.findGroups lib name fuel (wrapInt (page + 1))
          (c.Do w (findGroups.request c name page)).2 = (Outcome.panic, w2) →
        c.findGroups lib name (fuel + 1) page w = (Outcome.panic, w2))) := by
  refine ⟨?_, findGroups_error_nil c lib name fuel page w, ?_, ?_⟩
  · intro groups err w1 h
    unfold Crowd.FindGroups at h
    split at h
    · rename_i result err1 w2 hrun
      simp only [Prod.mk.injEq, Outcome.ret.injEq] at h
      rw [← h.1.2]
      exact findGroups_error_nil c lib name fuel 0 w result err1 w2 hrun
    · simp at h
    · simp at h
  · intro e he
    simp [Crowd.findGroups, he]
  · intro hurl
    have hreq : http.NewRequest lib "POST" (findGroups.url c page)
        (some (findGroups.body name)) = Except.ok
          ⟨"POST", findGroups.url c page, some (findGroups.body name), []⟩ := by
      simp [http.NewRequest, hurl]
    have hsplit : c.Do w (c.SetDefaultHeader
        ⟨"POST", findGroups.url c page, some (findGroups.body name), []⟩) =
        ((c.Do w (findGroups.request c name page)).1,
          (c.Do w (findGroups.request c name page)).2) := rfl
    refine ⟨?_, ?_, ?_, ?_⟩
    · intro e he
      simp only [Crowd.findGroups, hreq]
      rw [hsplit, he]
    · intro resp e he hb
      simp only [Crowd.findGroups, hreq]
      rw [hsplit, he]
      simp only [hb]
    · intro resp body e he hb hd
      simp only [Crowd.findGroups, hreq]
      rw [hsplit, he]
      simp only [hb]
      rcases hu : lib.UnmarshalListGroups body with ⟨gl, err⟩
      rw [hu] at hd
      simp only at hd
      subst hd
      rfl
    · intro resp body groupList w2 he hb hd hlen hnext
      simp only [Crowd.findGroups, hreq]
      rw [hsplit, he]
      simp only [hb, hd, hlen, if_true, hnext]

/-- Witness for C10: on a backend with one short page FindGroups returns, and
the error it returns is nil. -/
theorem FindGroups_never_returns_error_witness :
    ∃ (groups : List (Option Group)) (err : Option GoError) (w1 : World (List http.Response)),
      testCrowd.FindGroups stdLib "adm" 1 (scriptedWorld [pageResponse "a" 1]) =
        (Outcome.ret (groups, err), w1) ∧ err = none :=
  ⟨(json.UnmarshalListGroups (groupsBody "a" 1)).1.Groups, none,
    { net := [], sent := [findGroups.request testCrowd "adm" 0], stdout := [] }, rfl,
    (FindGroups_never_returns_error testCrowd stdLib "adm" 1 0
      (scriptedWorld [pageResponse "a" 1])).1 _ none _ rfl⟩

/-! ## The encoder read back by the scanner -/

/-- The scanner run over two texts in a row. -/
theorem run_append (s : json.Scanner) (a b : List Char) :
    json.run s (a ++ b) = (json.run s a).bind fun s1 => json.run s1 b := by
  induction a generalizing s with
  | nil => rfl
  | cons c cs ih =>
    simp only [List.cons_append, json.run]
    cases json.step s c with
    | none => rfl
    | some s1 => exact ih s1

/-- Inside a string, the scanner reads what the encoder wrote for a character
as that character. -/
theorem run_escapeChar (isKey : Bool) (acc : List Char) (stack : List json.Frame) (c : Char) :
    json.run ⟨json.Mode.inString isKey acc none json.Esc.no, stack⟩ (json.escapeChar c) =
      some ⟨json.Mode.inString isKey (acc ++ [c]) none json.Esc.no, stack⟩ := by
  by_cases hlow : c.toNat < 32
  · have hc : c = Char.ofNat c.toNat := (Char.ofNat_toNat c).symm
    generalize c.toNat = n at hc hlow
    subst hc
    interval_cases n <;> rfl
  · by_cases h1 : c = '\"'
    · subst h1; rfl
    by_cases h2 : c = '\\'
    · subst h2; rfl
    by_cases h3 : c = '<'
    · subst h3; rfl
    by_cases h4 : c = '>'
    · subst h4; rfl
    by_cases h5 : c = '&'
    · subst h5; rfl
    by_cases h6 : c = Char.ofNat 8232
    · subst h6; rfl
    by_cases h7 : c = Char.ofNat 8233
    · subst h7; rfl
    have h8 : c ≠ Char.ofNat 8 := by rintro rfl; exact hlow (by decide)
    have h9 : c ≠ Char.ofNat 12 := by rintro rfl; exact hlow (by decide)
    have h10 : c ≠ '\n' := by rintro rfl; exact hlow (by decide)
    have h11 : c ≠ '\r' := by rintro rfl; exact hlow (by decide)
    have h12 : c ≠ '\t' := by rintro rfl; exact hlow (by decide)
    simp [json.escapeChar, json.run, json.step, json.stepString, json.flush, h1, h2, h3, h4,
      h5, h6, h7, h8, h9, h10, h11, h12, hlow]

/-- Inside a string, the scanner reads what the encoder wrote for a text as
that text. -/
theorem run_escaped (isKey : Bool) (stack : List json.Frame) (cs : List Char) :
    ∀ acc : List Char,
      json.run ⟨json.Mode.inString isKey acc none json.Esc.no, stack⟩
          (cs.flatMap json.escapeChar) =
        some ⟨json.Mode.inString isKey (acc ++ cs) none json.Esc.no, stack⟩ := by
  induction cs with
  | nil => intro acc; simp [json.run]
  | cons c cs ih =>
    intro acc
    rw [List.flatMap_cons, run_append, run_escapeChar]
    simp only [Option.bind]
    rw [ih]
    simp

/-- The body CreateGroup marshals, read back: an object with exactly the four
members `active`, `description`, `name` and `type`, all of them strings. -/
theorem parse_Marshal_values (name description : String) :
    json.parse (json.Marshal (CreateGroup.values name description)) =
      some (JSON.object [("active", JSON.string "true"),
        ("description", JSON.string description), ("name", JSON.string name),
        ("type", JSON.string "GROUP")]) := by
  have hv : CreateGroup.values name description =
      [("active", "true"), ("description", description), ("name", name), ("type", "GROUP")] :=
    rfl
  have hdata : (json.Marshal (CreateGroup.values name description)).data =
      "\x7b\"active\":\"true\",\"description\":\"".data ++
        (description.data.flatMap json.escapeChar ++
          ("\",\"name\":\"".data ++
            (name.data.flatMap json.escapeChar ++ "\",\"type\":\"GROUP\"\x7d".data))) := by
    rw [hv]
    simp only [json.Marshal, List.map_cons, List.map_nil, String.intercalate,
      String.intercalate.go, json.quote, String.data_append, List.append_assoc]
    rfl
  have hA : json.run ⟨json.Mode.value, []⟩ "\x7b\"active\":\"true\",\"description\":\"".data =
      some ⟨json.Mode.inString false [] none json.Esc.no,
        [json.Frame.object [("active", JSON.string "true")] "description"]⟩ := rfl
  have hB : json.run ⟨json.Mode.inString false ([] ++ description.data) none json.Esc.no,
        [json.Frame.object [("active", JSON.string "true")] "description"]⟩
        "\",\"name\":\"".data =
      some ⟨json.Mode.inString false [] none json.Esc.no,
        [json.Frame.object [("active", JSON.string "true"),
          ("description", JSON.string description)] "name"]⟩ := rfl
  have hC : json.run ⟨json.Mode.inString false ([] ++ name.data) none json.Esc.no,
        [json.Frame.object [("active", JSON.string "true"),
          ("description", JSON.string description)] "name"]⟩
        "\",\"type\":\"GROUP\"\x7d".data =
      some ⟨json.Mode.done (JSON.object [("active", JSON.string "true"),
        ("description", JSON.string description), ("name", JSON.string name),
        ("type", JSON.string "GROUP")]), []⟩ := rfl
  unfold json.parse
  rw [hdata, run_append, hA]
  simp only [Option.bind]
  rw [run_append, run_escaped]
  simp only [Option.bind]
  rw [run_append, hB]
  simp only [Option.bind]
  rw [run_append, run_escaped]
  simp only [Option.bind]
  rw [hC]
  rfl

/-- Counterexample for C8: in the body CreateGroup posts for the group `devs`,
the member `active` is the JSON string `"true"`, not the JSON boolean true. -/
theorem CreateGroup_active_is_not_boolean :
    ((testCrowd.CreateGroup stdLib "devs" "Developers"
        (scriptedWorld [⟨201, "201 Created", Except.ok ""⟩])).2.sent.map fun r => r.Body) =
      [some exampleCreateBody] ∧
    (json.parse exampleCreateBody).bind (JSON.member "active") = some (JSON.string "true") ∧
    (json.parse exampleCreateBody).bind (JSON.member "active") ≠ some (JSON.bool true) := by
  have h : (json.parse exampleCreateBody).bind (JSON.member "active") =
      some (JSON.string "true") := rfl
  refine ⟨by decide, h, ?_⟩
  rw [h]
  simp

/-- C8, amended. For every name and description, when the request is built
(the URL parses), the body CreateGroup posts is a JSON object with exactly the
four members `active`, `description`, `name` and `type`: `name` and
`description` are the given strings, `type` is the string `"GROUP"`, and
`active` is the JSON string `"true"`. -/
theorem CreateGroup_body_members (c : Crowd σ) (lib : GoLib) (name description : String)
    (w : World σ)
    (hurl : lib.urlParseError (c.url ++ "rest/usermanagement/1/group") = none) :
    ∃ body : String,
      (c.CreateGroup lib name description w).2.sent =
        w.sent ++ [⟨"POST", c.url ++ "rest/usermanagement/1/group", some body,
          c.defaultHeader⟩] ∧
      json.parse body =
        some (JSON.object [("active", JSON.string "true"),
          ("description", JSON.string description), ("name", JSON.string name),
          ("type", JSON.string "GROUP")]) := by
  refine ⟨json.Marshal (CreateGroup.values name description), ?_,
    parse_Marshal_values name description⟩
  simp only [Crowd.CreateGroup, http.NewRequest, hurl, Crowd.Do, Crowd.SetDefaultHeader]
  rcases hdo : c.Client.Do w.net
      ⟨"POST", c.url ++ "rest/usermanagement/1/group",
        some (json.Marshal (CreateGroup.values name description)), c.defaultHeader⟩
    with ⟨_ | resp, net1⟩
  · rfl
  · by_cases h : resp.StatusCode = 201 <;> simp [h]

/-- Witness for the amended C8: the group `devs` on the scripted backend. -/
theorem CreateGroup_body_members_witness :
    ∃ body : String,
      (testCrowd.CreateGroup stdLib "devs" "Developers"
          (scriptedWorld [⟨201, "201 Created", Except.ok ""⟩])).2.sent =
        [] ++ [⟨"POST", "http://crowd.test/" ++ "rest/usermanagement/1/group", some body,
          [("Accept", "application/json")]⟩] ∧
      json.parse body =
        some (JSON.object [("active", JSON.string "true"),
          ("description", JSON.string "Developers"), ("name", JSON.string "devs"),
          ("type", JSON.string "GROUP")]) :=
  CreateGroup_body_members testCrowd stdLib "devs" "Developers"
    (scriptedWorld [⟨201, "201 Created", Except.ok ""⟩]) rfl

/-! ## The search body -/

/-- Inside a string, the scanner reads a text without double quote, backslash
and control character as it stands. -/
theorem run_plain (isKey : Bool) (stack : List json.Frame) (cs : List Char)
    (h : ∀ c ∈ cs, 32 ≤ c.toNat ∧ c ≠ '\"' ∧ c ≠ '\\') :
    ∀ acc : List Char,
      json.run ⟨json.Mode.inString isKey acc none json.Esc.no, stack⟩ cs =
        some ⟨json.Mode.inString isKey (acc ++ cs) none json.Esc.no, stack⟩ := by
  induction cs with
  | nil => intro acc; simp [json.run]
  | cons c cs ih =>
    intro acc
    have hc := h c (List.mem_cons_self _ _)
    have hlow : ¬ c.toNat < 32 := by omega
    simp only [json.run, json.step, json.stepString, json.flush, hc.2.1, hc.2.2, hlow,
      if_false]
    rw [ih (fun d hd => h d (List.mem_cons_of_mem _ hd))]
    simp

/-- For every search string without double quote, backslash and control
character the search body is valid JSON: it is the search document for that
string. -/
theorem findGroups_body_of_plain (searchString : String)
    (h : ∀ c ∈ searchString.data, 32 ≤ c.toNat ∧ c ≠ '\"' ∧ c ≠ '\\') :
    json.parse (findGroups.body searchString) = some (searchDocument searchString) := by
  have hdata : (findGroups.body searchString).data =
      findGroups.bodyHead.data ++ (searchString.data ++ findGroups.bodyTail.data) := by
    simp [findGroups.body, String.data_append]
  have hA : json.run ⟨json.Mode.value, []⟩ findGroups.bodyHead.data =
      some ⟨json.Mode.inString false [] none json.Esc.no, searchStack⟩ := rfl
  have hB : json.run ⟨json.Mode.inString false ([] ++ searchString.data) none json.Esc.no,
        searchStack⟩ findGroups.bodyTail.data =
      some ⟨json.Mode.done (searchDocument searchString), []⟩ := rfl
  unfold json.parse
  rw [hdata, run_append, hA]
  simp only [Option.bind]
  rw [run_append, run_plain false searchStack searchString.data h]
  simp only [Option.bind]
  rw [hB]
  rfl

/-- C6, at the failing inputs. For the search strings `"` and `\` the body
findGroups builds and puts in the request is not valid JSON, while the body for
`adm` is. -/
theorem findGroups_body_invalid :
    json.Valid (findGroups.body "\"") = false ∧
    json.Valid (findGroups.body "\\") = false ∧
    json.Valid (findGroups.body "adm") = true ∧
    ((testCrowd.FindGroups stdLib "\"" 1 (scriptedWorld [pageResponse "a" 1])).2.sent.map
      fun r => r.Body) = [some (findGroups.body "\"")] := by
  refine ⟨by decide, by decide, by decide, by decide⟩

/-- C5, at the failing input. A backend answers the search with status 500:
findGroups does not look at the status; with the error body of the server it
returns no group and a nil error, and with a body that lists a group it
returns that group and a nil error. -/
theorem FindGroups_ignores_status :
    (testCrowd.FindGroups stdLib "adm" 1
      (scriptedWorld [⟨500, "500 Internal Server Error", Except.ok errorBody⟩])).1 =
      Outcome.ret ([], none) ∧
    (testCrowd.FindGroups stdLib "adm" 1
      (scriptedWorld [⟨500, "500 Internal Server Error", Except.ok (groupsBody "a" 1)⟩])).1 =
      Outcome.ret ([some ⟨"a0", ⟨"http://crowd.test/group?groupname=a0", "self"⟩⟩], none) := by
  refine ⟨by decide, by decide⟩

/-! ## GetGroup -/

/-- C9, at the failing input. Two well-formed detail records of the group
`devs` that differ in description, active flag and attributes: GetGroup
returns the same value for both, a `Group` holding the name and the link only. -/
theorem GetGroup_drops_detail :
    (json.parse detailBodyA).bind (JSON.member "description") =
      some (JSON.string "Developers") ∧
    (json.parse detailBodyB).bind (JSON.member "description") =
      some (JSON.string "Operations") ∧
    (json.parse detailBodyA).bind (JSON.member "active") = some (JSON.bool true) ∧
    (json.parse detailBodyB).bind (JSON.member "active") = some (JSON.bool false) ∧
    (testCrowd.GetGroup stdLib "devs" (scriptedWorld [⟨200, "200 OK", Except.ok detailBodyA⟩])).1 =
      Outcome.ret (some ⟨"devs", ⟨"http://crowd.test/group?groupname=devs", "self"⟩⟩, none) ∧
    (testCrowd.GetGroup stdLib "devs" (scriptedWorld [⟨200, "200 OK", Except.ok detailBodyB⟩])).1 =
      Outcome.ret (some ⟨"devs", ⟨"http://crowd.test/group?groupname=devs", "self"⟩⟩, none) := by
  refine ⟨rfl, rfl, rfl, rfl, by decide, by decide⟩

end crowd

